import Mathlib

/-!
# Verification of the NSE bhavcopy acquisition / conversion pipelines

Shallow embedding of the core of the `investor_agent_data` repository:

* `src/holidays/indian_holidays.py` — the Holiday Oracle (`HolidayManager`);
* `src/gcp_upload/create_local_structure.py` — the Conversion Pipeline
  (`_get_file_datetime_from_name`, `ProcessingTracker`, `_build_daily_parquet`);
* `src/nse_download/download_nse_data_headless.py` — the Acquisition Pipeline
  (`StatusLogger`, `NSEBhavcopyDownloader`).

Filesystems are modelled as association lists from structured paths (lists of
components) to file contents (strings of bytes).  The external capabilities the
code consumes (HTTP fetch, zip extraction, CSV parse, Parquet write) are
modelled as explicit environment records of pure functions, following the
design boundary stated in the repository: the pipelines treat them as opaque
"fetch bytes / extract archive / parse tabular / write columnar" services.
-/

namespace InvestorAgent

/-! ## Calendar dates

`datetime.date`-like triples.  Python's `date` constructor enforces
`1 <= year <= 9999`, `1 <= month <= 12`, `1 <= day <= days in month`. -/

structure HDate where
  year : Nat
  month : Nat
  day : Nat
deriving DecidableEq, Repr

/-- Gregorian leap-year test, as used by `datetime`. -/
def isLeap (y : Nat) : Bool :=
  y % 4 == 0 && (y % 100 != 0 || y % 400 == 0)

/-- Number of days in a month (`datetime` semantics). -/
def daysInMonth (y m : Nat) : Nat :=
  if m = 2 then (if isLeap y then 29 else 28)
  else if m = 4 ∨ m = 6 ∨ m = 9 ∨ m = 11 then 30
  else 31

/-- Validity of a `datetime.date` triple. -/
def validDate (d : HDate) : Prop :=
  1 ≤ d.year ∧ d.year ≤ 9999 ∧ 1 ≤ d.month ∧ d.month ≤ 12 ∧
    1 ≤ d.day ∧ d.day ≤ daysInMonth d.year d.month

instance (d : HDate) : Decidable (validDate d) := by
  unfold validDate; infer_instance

/-- Days in all full months preceding month `m` of a common year
(`datetime`'s `_DAYS_BEFORE_MONTH` table). -/
def daysBeforeMonthCommon (m : Nat) : Nat :=
  match m with
  | 1 => 0 | 2 => 31 | 3 => 59 | 4 => 90 | 5 => 120 | 6 => 151
  | 7 => 181 | 8 => 212 | 9 => 243 | 10 => 273 | 11 => 304 | 12 => 334
  | _ => 0

def daysBeforeMonth (y m : Nat) : Nat :=
  daysBeforeMonthCommon m + (if 3 ≤ m ∧ isLeap y then 1 else 0)

/-- Days strictly before January 1 of year `y` (`datetime`'s `_days_before_year`). -/
def daysBeforeYear (y : Nat) : Nat :=
  365 * (y - 1) + (y - 1) / 4 - (y - 1) / 100 + (y - 1) / 400

/-- `datetime.date.toordinal`: 0001-01-01 is ordinal 1. -/
def toOrdinal (d : HDate) : Nat :=
  daysBeforeYear d.year + daysBeforeMonth d.year d.month + d.day

/-- `datetime.date.weekday`: Monday = 0 … Sunday = 6. -/
def weekday (d : HDate) : Nat :=
  (toOrdinal d + 6) % 7

/-! ## Decimal digits and fixed-width date strings -/

/-- The decimal digit character for `n % 10`-style values `0 ≤ n ≤ 9`. -/
def digitChar (n : Nat) : Char :=
  if n = 0 then '0' else if n = 1 then '1' else if n = 2 then '2'
  else if n = 3 then '3' else if n = 4 then '4' else if n = 5 then '5'
  else if n = 6 then '6' else if n = 7 then '7' else if n = 8 then '8'
  else '9'

/-- Value of a decimal digit character (`none` on a non-digit), matching the
character class `[0-9]` used by `strptime`'s field regexes. -/
def digitVal (c : Char) : Option Nat :=
  if c = '0' then some 0 else if c = '1' then some 1 else if c = '2' then some 2
  else if c = '3' then some 3 else if c = '4' then some 4 else if c = '5' then some 5
  else if c = '6' then some 6 else if c = '7' then some 7 else if c = '8' then some 8
  else if c = '9' then some 9 else none

/-- Two zero-padded decimal digits (`"%02d"` for values below 100). -/
def pad2 (n : Nat) : List Char := [digitChar (n / 10 % 10), digitChar (n % 10)]

/-- Four zero-padded decimal digits (`"%04d"` for values below 10000). -/
def pad4 (n : Nat) : List Char :=
  [digitChar (n / 1000 % 10), digitChar (n / 100 % 10),
   digitChar (n / 10 % 10), digitChar (n % 10)]

def pad2s (n : Nat) : String := ⟨pad2 n⟩
def pad4s (n : Nat) : String := ⟨pad4 n⟩

/-- `date.strftime("%d%m%Y")` for four-digit years: the DDMMYYYY filename tail. -/
def formatDDMMYYYY (d : HDate) : String :=
  ⟨pad2 d.day ++ pad2 d.month ++ pad4 d.year⟩

/-- `date.strftime("%Y-%m-%d")`. -/
def formatYMD (d : HDate) : String :=
  pad4s d.year ++ "-" ++ pad2s d.month ++ "-" ++ pad2s d.day

/-- `date.strftime("%A")` weekday names, indexed by `weekday`. -/
def weekdayName (w : Nat) : String :=
  match w with
  | 0 => "Monday" | 1 => "Tuesday" | 2 => "Wednesday" | 3 => "Thursday"
  | 4 => "Friday" | 5 => "Saturday" | _ => "Sunday"

/-!
`datetime.strptime(s, "%d%m%Y")` on a string of exactly eight characters: the
`%Y` field regex is exactly four digits, so the only possible split of eight
characters is two digits of day, two of month, four of year; the day regex
admits `01`–`31`, the month regex `01`–`12`, and the resulting triple is then
validated by the `date` constructor (day within the month, year at least 1).
A `ValueError` at any point is modelled as `none`.
-/
def parse8 (l : List Char) : Option HDate :=
  match l with
  | [a, b, c, d, e, f, g, h] =>
    match digitVal a, digitVal b, digitVal c, digitVal d,
          digitVal e, digitVal f, digitVal g, digitVal h with
    | some a', some b', some c', some d', some e', some f', some g', some h' =>
      let day := 10 * a' + b'
      let month := 10 * c' + d'
      let year := 1000 * e' + 100 * f' + 10 * g' + h'
      if 1 ≤ day ∧ 1 ≤ month ∧ month ≤ 12 ∧ 1 ≤ year ∧
          day ≤ daysInMonth year month then
        some ⟨year, month, day⟩
      else none
    | _, _, _, _, _, _, _, _ => none
  | _ => none

/-- `stem[-8:]` followed by `datetime.strptime(date_str, "%d%m%Y")`, i.e. the
body of `_get_file_datetime_from_name` applied to the filename stem
(`create_local_structure.py`).  Python's slice keeps the whole string when it
is shorter than eight characters; for such short stems `strptime`'s
variable-width day/month fields could still match, an edge the embedding does
not model, so every theorem below quantifies over stems of length at least
eight, where the fixed four-digit `%Y` field forces the 2–2–4 split mirrored
by `parse8`. -/
def dateFromStem (stem : String) : Option HDate :=
  parse8 (stem.data.drop (stem.data.length - 8))

/-! ## Holiday Oracle (`indian_holidays.py`) -/

/-- `RECURRING_HOLIDAYS`: the fallback list of `(month, day)` pairs. -/
def RECURRING_HOLIDAYS : List (Nat × Nat) :=
  [(1, 26), (5, 1), (8, 15), (10, 2), (12, 25)]

/-- The two states `HolidayManager.load_holidays` can leave the manager in:
either the CSV loaded (`_using_recurring = False`, `_loaded_holidays` a set of
dates), or the recurring fallback (`_using_recurring = True`,
`_loaded_holidays = RECURRING_HOLIDAYS`). -/
inductive HolidayState where
  | authoritative (loaded : List HDate)
  | recurringMode
deriving DecidableEq, Repr

/-- `HolidayManager.is_public_holiday`: in recurring mode test
`(month, day)` against the recurring pairs; in authoritative mode test exact
membership in the loaded set and fall back to the recurring pairs. -/
def isPublicHoliday (h : HolidayState) (d : HDate) : Bool :=
  match h with
  | .recurringMode => decide ((d.month, d.day) ∈ RECURRING_HOLIDAYS)
  | .authoritative s =>
      decide (d ∈ s) || decide ((d.month, d.day) ∈ RECURRING_HOLIDAYS)

/-- `HolidayManager.__contains__` applied to a date object: in authoritative
mode, a plain membership test in the loaded set (no recurring fallback); in
recurring mode the loaded collection holds `(month, day)` tuples, so a date
object never equals any element and the test is always `False`. -/
def holidayContains (h : HolidayState) (d : HDate) : Bool :=
  match h with
  | .authoritative s => decide (d ∈ s)
  | .recurringMode => false

/-! ## Filesystem model

Paths are lists of components; a filesystem is an association list from paths
to file contents (byte strings).  `fsInsert` models an (over)write, `fsErase`
an `unlink`. -/

abbrev FPath := List String

abbrev FS := List (FPath × String)

def fsLookup : FS → FPath → Option String
  | [], _ => none
  | (q, v) :: rest, p => if q = p then some v else fsLookup rest p

def fsErase : FS → FPath → FS
  | [], _ => []
  | (q, v) :: rest, p => if q = p then fsErase rest p else (q, v) :: fsErase rest p

def fsInsert (fs : FS) (p : FPath) (v : String) : FS :=
  (p, v) :: fsErase fs p

/-- Last path component (`Path.name`). -/
def baseName (p : FPath) : String := p.getLastD ""

/-- Split a character list at every occurrence of `sep`
(`str.split(sep)` semantics: splitting the empty string yields one empty
field). -/
def splitOnChar (sep : Char) : List Char → List (List Char)
  | [] => [[]]
  | c :: rest =>
    match splitOnChar sep rest with
    | [] => [[c]]
    | cur :: others =>
      if c = sep then [] :: cur :: others else (c :: cur) :: others

/-- Split a string at every occurrence of a one-character separator. -/
def splitString (sep : Char) (s : String) : List String :=
  (splitOnChar sep s.data).map (fun l => ⟨l⟩)

/-- `Path.stem`: the final component without its last `.`-suffix (hidden-file
edge cases such as `".bashrc"` are outside the filename convention and not
modelled). -/
def fileStem (name : String) : String :=
  let parts := splitString '.' name
  if parts.length ≤ 1 then name else String.intercalate "." parts.dropLast

/-- `str(path)` on a relative path. -/
def joinPath (p : FPath) : String := String.intercalate "/" p

/-- `_get_file_datetime_from_name` (`create_local_structure.py`, lines 22–32):
extract the stem, take its last eight characters, parse as DDMMYYYY. -/
def getFileDatetimeFromName (p : FPath) : Option HDate :=
  dateFromStem (fileStem (baseName p))

/-! ## Status Ledger (`ProcessingTracker`, `create_local_structure.py`) -/

/-- `ProcessingTracker.Status`. -/
inductive PStatus where
  | success
  | skipped
  | error
deriving DecidableEq, Repr

/-- `ProcessingTracker.Status.value` strings. -/
def PStatus.value : PStatus → String
  | .success => "Success"
  | .skipped => "Skipped"
  | .error => "Error"

/-- One row appended by `ProcessingTracker.add_record`, with the fields of
`ProcessingTracker.StatusRecord`.  `inputFileShape` is `none` for the integer
default `0` of the `input_file_shape` parameter and `some (rows, cols)` when a
`df.shape` pair is passed. -/
structure ConvRecord where
  fileName : String
  status : PStatus
  outputFileName : String
  fileDate : String
  weekdayField : String
  inputFileSize : Nat
  outputFileSize : Nat
  inputFileShape : Option (Nat × Nat)
  inputFilePath : String
  outputFilePath : String
  copiedInputFilePath : String
deriving DecidableEq, Repr

/-- The record-construction logic of `add_record`: metadata extracted from the
paths, sizes from the output filesystem (`output_filepath.stat().st_size` when
it exists, else 0), date and weekday from the filename (or `"N/A"`).  Paths in
this embedding are already relative to their roots, so `relative_to` is the
identity render `joinPath`. -/
def mkConvRecord (fsOut : FS) (inputPath : FPath) (inputSize : Nat)
    (status : PStatus) (outputPath : Option FPath)
    (shape : Option (Nat × Nat)) (copiedPath : Option FPath) : ConvRecord :=
  let outputSize := match outputPath with
    | some p => match fsLookup fsOut p with
      | some c => c.length
      | none => 0
    | none => 0
  let outputName := match outputPath with
    | some p => baseName p
    | none => ""
  let dateFields := match getFileDatetimeFromName inputPath with
    | some d => (formatYMD d, weekdayName (weekday d))
    | none => ("N/A", "N/A")
  { fileName := baseName inputPath
    status := status
    outputFileName := outputName
    fileDate := dateFields.1
    weekdayField := dateFields.2
    inputFileSize := inputSize
    outputFileSize := outputSize
    inputFileShape := shape
    inputFilePath := joinPath inputPath
    outputFilePath := (outputPath.map joinPath).getD ""
    copiedInputFilePath := (copiedPath.map joinPath).getD "" }

/-- `ProcessingTracker` state: the ordered `records` list and the three
counters of the `stats` dictionary. -/
structure Tracker where
  records : List ConvRecord
  statSuccess : Nat
  statSkipped : Nat
  statError : Nat
deriving DecidableEq, Repr

/-- `ProcessingTracker.__init__`: empty records, all counters zero. -/
def Tracker.init : Tracker := ⟨[], 0, 0, 0⟩

/-- Arguments of one `add_record` call. -/
structure AddCall where
  inputPath : FPath
  status : PStatus
  outputPath : Option FPath
  shape : Option (Nat × Nat)
  copiedPath : Option FPath
deriving DecidableEq, Repr

/-- `ProcessingTracker.add_record`: `input_filepath.stat().st_size` raises
(`Except.error`) when the input path does not exist; otherwise the record is
built, appended, and — since `status` is always one of the three `Status`
members and all three are keys of `stats` — exactly one counter is
incremented. -/
def Tracker.addRecord (t : Tracker) (fsIn fsOut : FS) (call : AddCall) :
    Except String Tracker :=
  match fsLookup fsIn call.inputPath with
  | none => .error ("FileNotFoundError: " ++ joinPath call.inputPath)
  | some content =>
    let r := mkConvRecord fsOut call.inputPath content.length call.status
      call.outputPath call.shape call.copiedPath
    let t' := { t with records := t.records ++ [r] }
    .ok (match call.status with
      | .success => { t' with statSuccess := t'.statSuccess + 1 }
      | .skipped => { t' with statSkipped := t'.statSkipped + 1 }
      | .error => { t' with statError := t'.statError + 1 })

/-- A sequence of `add_record` calls, stopping at the first raised exception. -/
def runAdds (fsIn fsOut : FS) (t : Tracker) : List AddCall → Except String Tracker
  | [] => .ok t
  | c :: rest =>
    match t.addRecord fsIn fsOut c with
    | .error e => .error e
    | .ok t' => runAdds fsIn fsOut t' rest

/-- `ProcessingTracker.print_summary`'s total: the sum of the three counters. -/
def Tracker.total (t : Tracker) : Nat :=
  t.statSuccess + t.statSkipped + t.statError

/-- `ProcessingTracker.STATUS_FILENAME` with the script-start timestamp
interpolated, resolved under the `logs` folder. -/
def statusCsvPath (ts : String) : FPath :=
  ["logs", "file_processing_status-" ++ ts ++ ".csv"]

/-- One CSV line; the `csv` module's quoting rules are abstracted as a plain
comma join. -/
def csvLine (fields : List String) : String :=
  String.intercalate "," fields

/-- The serialization of the tracker's records performed by `save_to_csv`:
header row then one row per record, in insertion order. -/
def renderTrackerCsv (records : List ConvRecord) : String :=
  let header := csvLine ["File name", "Processing status", "Output file name",
    "File date", "Weekday", "Input file size", "Output file size",
    "Input file shape", "Input file path", "Output file path",
    "Copied input file path"]
  let row := fun (r : ConvRecord) => csvLine [r.fileName, r.status.value,
    r.outputFileName, r.fileDate, r.weekdayField, toString r.inputFileSize,
    toString r.outputFileSize,
    (match r.inputFileShape with
     | some (a, b) => "(" ++ toString a ++ ", " ++ toString b ++ ")"
     | none => "0"),
    r.inputFilePath, r.outputFilePath, r.copiedInputFilePath]
  String.intercalate "\n" (header :: records.map row)

/-- `ProcessingTracker.save_to_csv`: if the status path already exists, log a
warning (the returned flag) and return without writing; otherwise write the
rendered records there.  The returned filesystem is the `logs` tree. -/
def saveToCsv (ts : String) (fs : FS) (records : List ConvRecord) : FS × Bool :=
  if (fsLookup fs (statusCsvPath ts)).isSome then
    (fs, true)
  else
    (fsInsert fs (statusCsvPath ts) (renderTrackerCsv records), false)

/-! ## Conversion Pipeline (`_build_daily_parquet`) -/

/-- An in-memory `pandas.DataFrame`: abstract payload plus its `shape`. -/
structure Table where
  payload : String
  nrows : Nat
  ncols : Nat
deriving DecidableEq, Repr

/-- Result of the columnar-write capability (`df.to_parquet`).  A failure
carries the exception message and whatever bytes the primitive left at the
destination before failing (`none` when it left nothing). -/
inductive WriteResult where
  | ok (bytes : String)
  | fail (msg : String) (partialBytes : Option String)
deriving DecidableEq, Repr

/-- The external capabilities the Conversion Pipeline consumes as opaque
services: `pd.read_csv` (parse tabular content, may raise) and
`df.to_parquet` (write columnar content, may raise). -/
structure ConvEnv where
  readCSV : String → Except String Table
  writeParquet : Table → WriteResult

/-- One file found by `raw_root.rglob(pattern)`: its path relative to
`raw_root` and its content.  The input tree is read-only during the run, so
the size `add_record` obtains by re-stat-ing the input path is the length of
this content. -/
structure ConvInput where
  path : FPath
  content : String
deriving DecidableEq, Repr

/-- `output_root / "raw" / "cm" / year=YYYY / month=MM`. -/
def rawDirOf (d : HDate) : FPath :=
  ["raw", "cm", "year=" ++ pad4s d.year, "month=" ++ pad2s d.month]

def copiedPathOf (d : HDate) (name : String) : FPath :=
  rawDirOf d ++ [name]

/-- `output_root / "curated" / "cm" / year=YYYY / month=MM / day=DD.parquet`. -/
def curatedPathOf (d : HDate) : FPath :=
  ["curated", "cm", "year=" ++ pad4s d.year, "month=" ++ pad2s d.month,
   "day=" ++ pad2s d.day ++ ".parquet"]

/-- Output of one iteration of the `_build_daily_parquet` per-file loop. -/
structure ConvStepOut where
  fs : FS
  record : ConvRecord
  logs : List String
deriving DecidableEq, Repr

/-- One iteration of the per-file loop of `_build_daily_parquet`
(`create_local_structure.py`, lines 199–275), acting on the output-root
filesystem `fs`:

1. parse the trade date from the filename; on failure record an error;
2. copy the input into the raw partition unless it is already there
   (`force` re-copies); the copy primitive cannot fail in this filesystem
   model, so the copy-error branch of the source is unreachable here;
3. if the curated Parquet exists and `force` is not set, record a skip;
4. otherwise parse the CSV and write the Parquet, recording success with the
   parsed shape, or catch the exception and record an error (the failed
   write's partial bytes, if any, stay at the curated destination — the
   source performs no cleanup). -/
def convStep (env : ConvEnv) (force : Bool) (fs : FS) (inp : ConvInput) :
    ConvStepOut :=
  match getFileDatetimeFromName inp.path with
  | none =>
    { fs := fs
      record := mkConvRecord fs inp.path inp.content.length .error none none none
      logs := ["[ERROR] Cannot parse date from filename: " ++ joinPath inp.path] }
  | some d =>
    let name := baseName inp.path
    let copied := copiedPathOf d name
    let doCopy := force || (fsLookup fs copied).isNone
    let fs1 := if doCopy then fsInsert fs copied inp.content else fs
    let copyLog := if doCopy then
        "[COPY] Copied input file to: " ++ joinPath copied
      else
        "[SKIP] Input file already exists at " ++ joinPath copied
    let curated := curatedPathOf d
    if !force && (fsLookup fs1 curated).isSome then
      { fs := fs1
        record := mkConvRecord fs1 inp.path inp.content.length .skipped
          (some curated) none (some copied)
        logs := [copyLog, "[SKIP] Parquet already exists for " ++ formatYMD d ++
          ": " ++ joinPath curated] }
    else
      let processLog := "[PROCESS] " ++ joinPath inp.path ++ " -> " ++
        joinPath curated
      match env.readCSV inp.content with
      | .error msg =>
        { fs := fs1
          record := mkConvRecord fs1 inp.path inp.content.length .error
            none none (some copied)
          logs := [copyLog, processLog,
            "[ERROR] Failed to process " ++ joinPath inp.path ++ ": " ++ msg] }
      | .ok df =>
        match env.writeParquet df with
        | .ok bytes =>
          let fs2 := fsInsert fs1 curated bytes
          { fs := fs2
            record := mkConvRecord fs2 inp.path inp.content.length .success
              (some curated) (some (df.nrows, df.ncols)) (some copied)
            logs := [copyLog, processLog] }
        | .fail msg partialBytes =>
          let fs2 := match partialBytes with
            | some pb => fsInsert fs1 curated pb
            | none => fs1
          { fs := fs2
            record := mkConvRecord fs2 inp.path inp.content.length .error
              none none (some copied)
            logs := [copyLog, processLog,
              "[ERROR] Failed to process " ++ joinPath inp.path ++ ": " ++ msg] }

/-- The per-file loop of `_build_daily_parquet` over the files found by
`rglob`, threading the output filesystem and collecting the tracker records in
processing order (the tracker's counters are maintained by `add_record`,
modelled in `Tracker.addRecord`, and equal the per-status counts of this
list). -/
def convRun (env : ConvEnv) (force : Bool) (fs : FS) :
    List ConvInput → FS × List ConvRecord
  | [] => (fs, [])
  | inp :: rest =>
    let out := convStep env force fs inp
    let res := convRun env force out.fs rest
    (res.1, out.record :: res.2)

/-! ## Acquisition Pipeline (`download_nse_data_headless.py`) -/

/-- `%b` month abbreviations. -/
def monthAbbrev (m : Nat) : String :=
  match m with
  | 1 => "Jan" | 2 => "Feb" | 3 => "Mar" | 4 => "Apr" | 5 => "May" | 6 => "Jun"
  | 7 => "Jul" | 8 => "Aug" | 9 => "Sep" | 10 => "Oct" | 11 => "Nov" | _ => "Dec"

/-- `DATE_FORMAT = "%d-%b-%Y"`, the per-date key used in the status ledger and
the failed-dates list. -/
def dMonY (d : HDate) : String :=
  pad2s d.day ++ "-" ++ monthAbbrev d.month ++ "-" ++ pad4s d.year

/-- `date.strftime("%Y%m")`: the month-partition folder name. -/
def yyyymmS (d : HDate) : String := pad4s d.year ++ pad2s d.month

/-- `date.strftime("%Y%m%d")`: the temporary zip name component. -/
def yyyymmddS (d : HDate) : String := pad4s d.year ++ pad2s d.month ++ pad2s d.day

/-- `_get_month_folder` under the default output directory `./data`. -/
def monthFolder (d : HDate) : FPath := ["data", yyyymmS d]

/-- `sec_bhavdata_full_<DDMMYYYY>.csv`. -/
def expectedCsvName (d : HDate) : String :=
  "sec_bhavdata_full_" ++ formatDDMMYYYY d ++ ".csv"

/-- The expected output CSV for a date, in the month folder. -/
def expectedCsvPath (d : HDate) : FPath := monthFolder d ++ [expectedCsvName d]

/-- `_build_url`: the reports-API URL for a date.  The percent-encoded
constant `archives` descriptor is abstracted as a fixed placeholder; only the
identity of the URL (in particular its date parameter) matters to the model. -/
def buildUrl (d : HDate) : String :=
  "https://www.nseindia.com/api/reports?archives=<archives>&date=" ++
    dMonY d ++ "&type=Archives"

/-- An HTTP response as the downloader inspects it: status code, declared
content type, raw body, and — for `response.json()` — the optional parsed
payload, given as the optional `"file"` value of each JSON item (`none` for
the whole field models a body that is not JSON, raising `ValueError`). -/
structure HttpResponse where
  statusCode : Nat
  contentType : String
  body : String
  json : Option (List (Option String))

/-- External capabilities of the Acquisition Pipeline: the HTTP session
(`session.get`, keyed by URL), the zip-extraction primitive
(`none` models `zipfile.BadZipFile`), the optional existing-data directory,
and the current wall-clock second (`time.time()`), held fixed during a step. -/
structure AcqEnv where
  fetch : String → HttpResponse
  unzip : String → Option (List (String × String))
  existingDir : Option FS
  now : Nat

/-- One row appended by `StatusLogger.add_status` (all conversions to strings
and defaults applied as in the source: `None` paths become `""`,
`file_size or 0`, `str(file_shape) if file_shape else ""`). -/
structure AcqStatusEntry where
  date : String
  status : String
  reason : String
  filePath : String
  fileSize : Nat
  fileShape : String
deriving DecidableEq, Repr

/-- Mutable state of `NSEBhavcopyDownloader` during `download_range`:
the output-directory filesystem, the `StatusLogger` rows, the `failed_dates`
and `skipped_dates` lists, the cookie timestamp, and the trace of every URL
requested over the network (one entry per `session.get`). -/
structure AcqState where
  fs : FS
  statuses : List AcqStatusEntry
  failedDates : List (String × String)
  skippedDates : List String
  lastCookieTime : Nat
  netTrace : List String
deriving DecidableEq, Repr

/-- `str((rows, cols))` as recorded in the `file_shape` column. -/
def shapeStr (p : Nat × Nat) : String :=
  "(" ++ toString p.1 ++ ", " ++ toString p.2 ++ ")"

/-- `_get_csv_shape`: header column count and remaining row count; any error
(here: an empty file) yields `(0, 0)`.  The `csv` module's quoting rules are
abstracted as splits on newlines and commas. -/
def csvShape (content : String) : Nat × Nat :=
  let ls := splitString '\n' content
  let ls := if ls.getLast? = some "" then ls.dropLast else ls
  match ls with
  | [] => (0, 0)
  | header :: rest =>
    (rest.length, if header = "" then 0 else (splitString ',' header).length)

/-- `_get_cookie`: request the homepage, succeed iff HTTP 200 (a transport
exception is out of scope of the pure fetch model). -/
def getCookie (env : AcqEnv) (st : AcqState) : AcqState × Bool :=
  ({ st with netTrace := st.netTrace ++ ["https://www.nseindia.com"] },
   (env.fetch "https://www.nseindia.com").statusCode == 200)

/-- The cookie-refresh guard inlined in `download_and_extract` (and in
`_refresh_session_if_needed`): refresh only when more than
`COOKIE_REFRESH_INTERVAL = 300` seconds have elapsed. -/
def refreshSessionIfNeeded (env : AcqEnv) (st : AcqState) : AcqState :=
  if env.now - st.lastCookieTime > 300 then
    { (getCookie env st).1 with lastCookieTime := env.now }
  else st

/-- First JSON item whose `"file"` value ends in `".zip"` (items without a
`"file"` key are skipped), as in the `for item in data` loop. -/
def findZipFile : List (Option String) → Option String
  | [] => none
  | none :: rest => findZipFile rest
  | some f :: rest => if f.endsWith ".zip" then some f else findZipFile rest

/-- The save-extract-unlink tail of `download_and_extract`: write the zip to
the month folder, extract every archive member there, delete the zip; on
`BadZipFile`, record the failure and clean up the partially written zip. -/
def extractPhase (env : AcqEnv) (st : AcqState) (d : HDate)
    (zipContent : String) : AcqState × Bool :=
  let dateStr := dMonY d
  let zipPath := monthFolder d ++ ["bhavcopy_" ++ yyyymmddS d ++ ".zip"]
  let fs1 := fsInsert st.fs zipPath zipContent
  match env.unzip zipContent with
  | none =>
    ({ st with fs := fsErase fs1 zipPath,
               failedDates := st.failedDates ++ [(dateStr, "Invalid zip file")] },
     false)
  | some files =>
    let fs2 := files.foldl
      (fun acc nc => fsInsert acc (monthFolder d ++ [nc.1]) nc.2) fs1
    ({ st with fs := fsErase fs2 zipPath }, true)

/-- `download_and_extract` (lines 264–411): skip when the expected CSV already
exists; otherwise refresh the session cookie if stale, fetch the reports URL,
interpret the response as a direct zip (content type or `PK` magic) or as a
JSON pointer list requiring a second fetch, then extract.  Every failure is
recorded in `failed_dates` and returned as `false`; the broad
`except` clauses make the function itself never raise. -/
def downloadAndExtract (env : AcqEnv) (st : AcqState) (d : HDate) :
    AcqState × Bool :=
  let dateStr := dMonY d
  if (fsLookup st.fs (expectedCsvPath d)).isSome then
    ({ st with skippedDates := st.skippedDates ++ [dateStr] }, true)
  else
    let st1 := refreshSessionIfNeeded env st
    let url := buildUrl d
    let st2 := { st1 with netTrace := st1.netTrace ++ [url] }
    let resp := env.fetch url
    if resp.statusCode == 404 then
      ({ st2 with failedDates :=
          st2.failedDates ++ [(dateStr, "No data available (404)")] }, false)
    else if resp.statusCode ≠ 200 then
      ({ st2 with failedDates :=
          st2.failedDates ++ [(dateStr, "HTTP " ++ toString resp.statusCode)] },
       false)
    else if decide ("application/zip".data <:+: resp.contentType.data) ||
        resp.body.data.take 2 = ['P', 'K'] then
      extractPhase env st2 d resp.body
    else
      match resp.json with
      | none =>
        ({ st2 with failedDates := st2.failedDates ++
            [(dateStr, "Invalid response format (not JSON or ZIP)")] }, false)
      | some items =>
        if items.isEmpty then
          ({ st2 with failedDates := st2.failedDates ++
              [(dateStr, "No data in response")] }, false)
        else
          match findZipFile items with
          | none =>
            ({ st2 with failedDates := st2.failedDates ++
                [(dateStr, "No zip file in response")] }, false)
          | some f =>
            let url2 := "https://www.nseindia.com" ++ f
            let st3 := { st2 with netTrace := st2.netTrace ++ [url2] }
            let resp2 := env.fetch url2
            if resp2.statusCode ≠ 200 then
              ({ st3 with failedDates := st3.failedDates ++
                  [(dateStr, "Zip download HTTP " ++ toString resp2.statusCode)] },
               false)
            else
              extractPhase env st3 d resp2.body

/-- One iteration of the per-date `while` loop of `download_range`
(lines 439–507).  The second component is the exception propagating out of
the loop body, if any: the only unguarded operation is
`expected_csv.stat().st_size` on the success path, which raises
`FileNotFoundError` when the extracted archive did not contain the expected
file.  On an exception the iteration appends no status record. -/
def acqStep (env : AcqEnv) (st : AcqState) (d : HDate) :
    AcqState × Option String :=
  let dateStr := dMonY d
  if weekday d ≥ 5 then
    ({ st with statuses := st.statuses ++
        [⟨dateStr, "skipped_weekend", "Market closed on weekends", "", 0, ""⟩] },
     none)
  else
    let existingHit := match env.existingDir with
      | some ex => (fsLookup ex [yyyymmS d, expectedCsvName d]).isSome
      | none => false
    if existingHit then
      ({ st with statuses := st.statuses ++
          [⟨dateStr, "skipped_existing",
            "File already exists in existing directory", "", 0, ""⟩] }, none)
    else
      let out := downloadAndExtract env st d
      let st1 := out.1
      if out.2 then
        if st1.skippedDates.contains dateStr then
          ({ st1 with statuses := st1.statuses ++
              [⟨dateStr, "skipped_existing", "File already exists", "", 0,
                shapeStr (0, 0)⟩] }, none)
        else if st1.failedDates.any (fun p => p.1 == dateStr) then
          ({ st1 with statuses := st1.statuses ++
              [⟨dateStr, "failed",
                (((st1.failedDates.find? (fun p => p.1 == dateStr)).map
                  Prod.snd).getD ""), "", 0, shapeStr (0, 0)⟩] }, none)
        else
          match fsLookup st1.fs (expectedCsvPath d) with
          | none =>
            (st1, some ("FileNotFoundError: " ++ joinPath (expectedCsvPath d)))
          | some content =>
            ({ st1 with statuses := st1.statuses ++
                [⟨dateStr, "success", "", joinPath (expectedCsvPath d),
                  content.length, shapeStr (csvShape content)⟩] }, none)
      else
        ({ st1 with statuses := st1.statuses ++
            [⟨dateStr, "failed",
              (((st1.failedDates.find? (fun p => p.1 == dateStr)).map
                Prod.snd).getD "Unknown error"), "", 0, shapeStr (0, 0)⟩] },
         none)

/-- `download_status-<timestamp>.csv` under the log directory. -/
def downloadStatusPath (ts : String) : FPath :=
  ["logs", "download_status-" ++ ts ++ ".csv"]

/-- The serialization written by `StatusLogger.write_csv`. -/
def renderAcqCsv (statuses : List AcqStatusEntry) : String :=
  let header := csvLine ["date", "status", "reason", "file_path", "file_size",
    "file_shape"]
  let row := fun (s : AcqStatusEntry) => csvLine [s.date, s.status, s.reason,
    s.filePath, toString s.fileSize, s.fileShape]
  String.intercalate "\n" (header :: statuses.map row)

/-- `StatusLogger.write_csv`: open the status path in `"w"` mode and write all
rows — there is no existence check, so a pre-existing file at the path is
overwritten. -/
def writeCsv (ts : String) (statuses : List AcqStatusEntry) (fs : FS) : FS :=
  fsInsert fs (downloadStatusPath ts) (renderAcqCsv statuses)

/-- Sub-filesystem relation: every binding of `f` is a binding of `g`. -/
def fsSub (f g : FS) : Prop :=
  ∀ p v, fsLookup f p = some v → fsLookup g p = some v

/-! ## Concrete fixtures used by witnesses and counterexamples -/

/-- An HTTP session whose every request answers 404. -/
def fetch404 : String → HttpResponse := fun _ => ⟨404, "", "", none⟩

/-- Environment with a 404 session, failing unzip, no existing directory. -/
def envW : AcqEnv := ⟨fetch404, fun _ => none, none, 0⟩

/-- The downloader's state at the start of `download_range`. -/
def acqState0 : AcqState := ⟨[], [], [], [], 0, []⟩

/-- A `logs` tree already holding a conversion status report. -/
def fsOldConv : FS := [(statusCsvPath "TS", "OLD")]

/-- A `logs` tree already holding a download status report. -/
def fsOldAcq : FS := [(downloadStatusPath "TS", "OLD")]

/-- A raw tree holding one input CSV. -/
def fsInW : FS := [(["a.csv"], "xy")]

/-- One `add_record` call of each status against `fsInW`. -/
def callsW : List AddCall :=
  [⟨["a.csv"], .success, none, none, none⟩,
   ⟨["a.csv"], .skipped, none, none, none⟩,
   ⟨["a.csv"], .error, none, none, none⟩]

/-- An environment whose fetch returns a direct zip archive that extracts to
a file with an unexpected name. -/
def envC2 : AcqEnv :=
  ⟨fun _ => ⟨200, "application/zip", "PK-archive", none⟩,
   fun _ => some [("other.csv", "x")], none, 0⟩

/-- A conversion environment whose CSV parse always fails (used for a unit
that errors in both runs; the parse is never reached for the date-parse
failure below). -/
def envC7 : ConvEnv := ⟨fun _ => .error "parse", fun _ => .ok "bytes"⟩

/-- One input whose 8-character date tail (`99999999`) encodes no valid
date. -/
def convInputsBad : List ConvInput := [⟨["bad_99999999.csv"], "x"⟩]

/-- A conversion environment where parse and write both succeed. -/
def envC7ok : ConvEnv := ⟨fun _ => .ok ⟨"p", 2, 3⟩, fun _ => .ok "PARQ"⟩

/-- The documented example input file. -/
def inpGood : ConvInput := ⟨["201908", "sec_bhavdata_full_23082019.csv"], "c"⟩

/-- An environment whose Parquet write fails leaving partial bytes behind. -/
def envC9 : ConvEnv :=
  ⟨fun _ => .ok ⟨"payload", 3, 2⟩, fun _ => .fail "boom" (some "PARTIAL")⟩

/-- An environment whose CSV parse fails. -/
def envC9read : ConvEnv := ⟨fun _ => .error "boom", fun _ => .ok "bytes"⟩

/-- A well-named input file for the conversion step. -/
def inpW : ConvInput := ⟨["201908", "sec_bhavdata_full_23082019.csv"], "a,b"⟩

/-- A second well-named input file for the parse-failure witness. -/
def inpW2 : ConvInput := ⟨["201908", "sec_bhavdata_full_23082019.csv"], "z"⟩

/-! ## Filesystem lemmas -/

theorem fsLookup_erase_ne (fs : FS) (p r : FPath) (h : p ≠ r) :
    fsLookup (fsErase fs p) r = fsLookup fs r := by
  induction fs with
  | nil => rfl
  | cons hd tl ih =>
    obtain ⟨q, v⟩ := hd
    simp only [fsErase]
    by_cases hq : q = p
    · rw [if_pos hq, ih]
      have hqr : q ≠ r := by rw [hq]; exact h
      simp only [fsLookup]
      rw [if_neg hqr]
    · rw [if_neg hq]
      simp only [fsLookup]
      by_cases hr : q = r
      · rw [if_pos hr, if_pos hr]
      · rw [if_neg hr, if_neg hr, ih]

theorem fsLookup_insert (fs : FS) (p : FPath) (v : String) (r : FPath) :
    fsLookup (fsInsert fs p v) r = if p = r then some v else fsLookup fs r := by
  unfold fsInsert
  simp only [fsLookup]
  by_cases h : p = r
  · rw [if_pos h, if_pos h]
  · rw [if_neg h, if_neg h, fsLookup_erase_ne fs p r h]

theorem fsSub_refl (f : FS) : fsSub f f := fun _ _ h => h

theorem fsSub_trans {f g h : FS} (h1 : fsSub f g) (h2 : fsSub g h) :
    fsSub f h := fun p v hv => h2 p v (h1 p v hv)

theorem fsSub_insert_fresh (fs : FS) (p : FPath) (v : String)
    (h : fsLookup fs p = none) : fsSub fs (fsInsert fs p v) := by
  intro q w hw
  rw [fsLookup_insert]
  by_cases hpq : p = q
  · subst hpq; rw [h] at hw; exact absurd hw (by simp)
  · rw [if_neg hpq]; exact hw

/-! ## C5 — Holiday Oracle semantics -/

/-- C5: for every date `d`, in authoritative mode `is_public_holiday d` is
true iff `d` is in the loaded date set or `(d.month, d.day)` is one of the
five recurring pairs; in recurring mode it is true iff `(d.month, d.day)` is
one of those pairs, regardless of year. -/
theorem C5_theorem :
    (∀ (s : List HDate) (d : HDate),
      isPublicHoliday (.authoritative s) d = true ↔
        d ∈ s ∨ (d.month, d.day) ∈ RECURRING_HOLIDAYS) ∧
    (∀ d : HDate,
      isPublicHoliday .recurringMode d = true ↔
        (d.month, d.day) ∈ RECURRING_HOLIDAYS) := by
  constructor
  · intro s d
    simp [isPublicHoliday]
  · intro d
    simp [isPublicHoliday]

/-- C5 witness: concrete evaluations through the theorem — a loaded exact
date, and a recurring holiday in a different year. -/
theorem C5_witness :
    isPublicHoliday (.authoritative [⟨2019, 10, 8⟩]) ⟨2019, 10, 8⟩ = true ∧
      isPublicHoliday .recurringMode ⟨2031, 1, 26⟩ = true := by
  constructor
  · exact (C5_theorem.1 [⟨2019, 10, 8⟩] ⟨2019, 10, 8⟩).mpr (Or.inl (by decide))
  · exact (C5_theorem.2 ⟨2031, 1, 26⟩).mpr (by decide)

/-! ## C10 — `is_public_holiday` vs `__contains__` disagreement -/

/-- C10: in authoritative mode, any recurring-pair date absent from the
loaded set is flagged by `is_public_holiday` but rejected by the
container-protocol membership test `__contains__`, which applies no recurring
fallback. -/
theorem C10_theorem (s : List HDate) (d : HDate) (hmem : d ∉ s)
    (hrec : (d.month, d.day) ∈ RECURRING_HOLIDAYS) :
    isPublicHoliday (.authoritative s) d = true ∧
      holidayContains (.authoritative s) d = false := by
  simp [isPublicHoliday, holidayContains, hmem, hrec]

/-- C10 witness: Republic Day 2019 against an empty loaded set. -/
theorem C10_witness :
    isPublicHoliday (.authoritative []) ⟨2019, 1, 26⟩ = true ∧
      holidayContains (.authoritative []) ⟨2019, 1, 26⟩ = false :=
  C10_theorem [] ⟨2019, 1, 26⟩ (by decide) (by decide)

/-! ## C8 — weekend dates: one skip record, no network traffic -/

/-- C8: for a Saturday or Sunday, the per-date loop body returns with exactly
one appended record — status `skipped_weekend`, reason
`"Market closed on weekends"` — and an otherwise unchanged state: no URL is
requested, no session refresh happens, the filesystem is untouched, and no
exception is raised. -/
theorem C8_theorem (env : AcqEnv) (st : AcqState) (d : HDate)
    (h : 5 ≤ weekday d) :
    acqStep env st d =
      ({ st with statuses := st.statuses ++
          [⟨dMonY d, "skipped_weekend", "Market closed on weekends",
            "", 0, ""⟩] }, none) := by
  simp [acqStep, h]

/-- C8 witness: Saturday 2025-08-16. -/
theorem C8_witness :
    5 ≤ weekday ⟨2025, 8, 16⟩ ∧
      acqStep envW acqState0 ⟨2025, 8, 16⟩ =
        ({ acqState0 with statuses := acqState0.statuses ++
            [⟨dMonY ⟨2025, 8, 16⟩, "skipped_weekend",
              "Market closed on weekends", "", 0, ""⟩] }, none) :=
  ⟨by decide, C8_theorem envW acqState0 ⟨2025, 8, 16⟩ (by decide)⟩

/-! ## C3 — ledger serialization on a pre-existing output path -/

/-- C3 counterexample: the acquisition pipeline's `StatusLogger.write_csv`
performs no existence check — with a file already at the status path, the run
overwrites it instead of skipping, so the pre-existing contents are lost. -/
theorem C3_counterexample :
    fsLookup fsOldAcq (downloadStatusPath "TS") = some "OLD" ∧
      fsLookup (writeCsv "TS" [] fsOldAcq) (downloadStatusPath "TS") ≠
        some "OLD" := by decide

/-- C3 (amended): only the Conversion Pipeline's `save_to_csv` refuses to
overwrite: on collision it warns and returns with the filesystem unchanged
and the run continues; the Acquisition Pipeline's `write_csv` writes
unconditionally, replacing any pre-existing file at its output path. -/
theorem C3_theorem :
    (∀ (ts : String) (fs : FS) (records : List ConvRecord) (c : String),
      fsLookup fs (statusCsvPath ts) = some c →
        saveToCsv ts fs records = (fs, true)) ∧
    (∀ (ts : String) (fs : FS) (statuses : List AcqStatusEntry),
      fsLookup (writeCsv ts statuses fs) (downloadStatusPath ts) =
        some (renderAcqCsv statuses)) := by
  constructor
  · intro ts fs records c h
    unfold saveToCsv
    rw [h]
    rfl
  · intro ts fs statuses
    unfold writeCsv
    rw [fsLookup_insert, if_pos rfl]

/-- C3 witness: a collision on the conversion status path is skipped with a
warning. -/
theorem C3_witness :
    fsLookup fsOldConv (statusCsvPath "TS") = some "OLD" ∧
      saveToCsv "TS" fsOldConv [] = (fsOldConv, true) :=
  ⟨by decide, C3_theorem.1 "TS" fsOldConv [] "OLD" (by decide)⟩

/-! ## C4 — tracker counters stay in lockstep with the record list -/

theorem addRecord_step (t : Tracker) (fsIn fsOut : FS) (c : AddCall)
    (t' : Tracker) (h : t.addRecord fsIn fsOut c = .ok t') :
    t'.records.length = t.records.length + 1 ∧
      t'.statSuccess = t.statSuccess + (if c.status = .success then 1 else 0) ∧
      t'.statSkipped = t.statSkipped + (if c.status = .skipped then 1 else 0) ∧
      t'.statError = t.statError + (if c.status = .error then 1 else 0) := by
  unfold Tracker.addRecord at h
  cases hl : fsLookup fsIn c.inputPath with
  | none => rw [hl] at h; exact absurd h (by simp)
  | some content =>
    rw [hl] at h
    cases hs : c.status <;>
      · rw [hs] at h
        simp only [Except.ok.injEq] at h
        subst h
        simp

theorem runAdds_invariant (fsIn fsOut : FS) (calls : List AddCall) :
    ∀ (t t' : Tracker), runAdds fsIn fsOut t calls = .ok t' →
      t.statSuccess + t.statSkipped + t.statError = t.records.length →
      t'.statSuccess + t'.statSkipped + t'.statError = t'.records.length := by
  induction calls with
  | nil =>
    intro t t' h hinv
    unfold runAdds at h
    simp only [Except.ok.injEq] at h
    subst h
    exact hinv
  | cons c rest ih =>
    intro t t' h hinv
    unfold runAdds at h
    cases hc : t.addRecord fsIn fsOut c with
    | error e => rw [hc] at h; exact absurd h (by simp)
    | ok t1 =>
      rw [hc] at h
      refine ih t1 t' h ?_
      obtain ⟨hlen, hsu, hsk, her⟩ := addRecord_step t fsIn fsOut c t1 hc
      rw [hlen, hsu, hsk, her]
      cases c.status <;> simp <;> omega

/-- C4: `add_record` appends one record and bumps exactly the counter of its
status (the other two are unchanged), and consequently after any sequence of
successful `add_record` calls starting from a fresh tracker, the success,
skipped and error counters sum to the length of the records list. -/
theorem C4_theorem :
    (∀ (t : Tracker) (fsIn fsOut : FS) (c : AddCall) (t' : Tracker),
      t.addRecord fsIn fsOut c = .ok t' →
        t'.records.length = t.records.length + 1 ∧
        t'.statSuccess = t.statSuccess + (if c.status = .success then 1 else 0) ∧
        t'.statSkipped = t.statSkipped + (if c.status = .skipped then 1 else 0) ∧
        t'.statError = t.statError + (if c.status = .error then 1 else 0)) ∧
    (∀ (fsIn fsOut : FS) (calls : List AddCall) (t' : Tracker),
      runAdds fsIn fsOut Tracker.init calls = .ok t' →
        t'.statSuccess + t'.statSkipped + t'.statError = t'.records.length) := by
  refine ⟨addRecord_step, ?_⟩
  intro fsIn fsOut calls t' h
  exact runAdds_invariant fsIn fsOut calls Tracker.init t' h rfl

/-- C4 witness: a concrete three-call sequence runs to completion and its
counters sum to its record count. -/
theorem C4_witness :
    (runAdds fsInW [] Tracker.init callsW).isOk = true ∧
      (runAdds fsInW [] Tracker.init callsW).map
          (fun t => t.statSuccess + t.statSkipped + t.statError) =
        (runAdds fsInW [] Tracker.init callsW).map
          (fun t => t.records.length) := by
  refine ⟨by decide, ?_⟩
  cases hrun : runAdds fsInW [] Tracker.init callsW with
  | error e => rfl
  | ok t' =>
    simp only [Except.map]
    rw [C4_theorem.2 fsInW [] callsW t' hrun]

/-! ## Helper lemmas on the acquisition step -/

theorem refresh_statuses (env : AcqEnv) (st : AcqState) :
    (refreshSessionIfNeeded env st).statuses = st.statuses := by
  unfold refreshSessionIfNeeded getCookie
  split <;> rfl

theorem extractPhase_statuses (env : AcqEnv) (st : AcqState) (d : HDate)
    (z : String) : (extractPhase env st d z).1.statuses = st.statuses := by
  simp only [extractPhase]
  split <;> rfl

theorem extractPhase_netTrace (env : AcqEnv) (st : AcqState) (d : HDate)
    (z : String) : (extractPhase env st d z).1.netTrace = st.netTrace := by
  simp only [extractPhase]
  split <;> rfl

/-- `download_and_extract` never touches the status ledger: its records are
appended afterwards, by the loop body of `download_range`. -/
theorem downloadAndExtract_statuses (env : AcqEnv) (st : AcqState) (d : HDate) :
    (downloadAndExtract env st d).1.statuses = st.statuses := by
  simp only [downloadAndExtract]
  repeat' split
  all_goals simp [extractPhase_statuses, refresh_statuses]

/-- When the expected CSV is absent, `download_and_extract` requests the
reports URL for the date, whatever the response. -/
theorem downloadAndExtract_fetches (env : AcqEnv) (st : AcqState) (d : HDate)
    (hmiss : fsLookup st.fs (expectedCsvPath d) = none) :
    buildUrl d ∈ (downloadAndExtract env st d).1.netTrace := by
  simp only [downloadAndExtract, hmiss]
  repeat' split
  all_goals simp_all [extractPhase_netTrace]

/-! ## C1 — the Holiday Oracle is never consulted by the skip logic -/

/-- C1 counterexample: 2025-08-15 (a Friday) is flagged as a holiday by the
Oracle (`is_public_holiday` is true in both modes, Independence Day being a
recurring pair), yet the per-date step of `download_range`, run against an
empty output tree, issues a network request for it and records a failure
rather than a skip: the skip logic never consults the Oracle. -/
theorem C1_counterexample :
    isPublicHoliday .recurringMode ⟨2025, 8, 15⟩ = true ∧
      (acqStep envW acqState0 ⟨2025, 8, 15⟩).1.netTrace =
        [buildUrl ⟨2025, 8, 15⟩] ∧
      (acqStep envW acqState0 ⟨2025, 8, 15⟩).1.statuses.map
          (fun s => s.status) = ["failed"] := by
  decide

/-- C1 (amended): the per-date skip logic consults only the weekday and
filesystem existence checks, never `is_public_holiday` — a date the Oracle
flags as a market holiday which falls on a weekday, with no existing-dir hit
and no already-present output, still proceeds to a network fetch of its
reports URL instead of being skipped. -/
theorem C1_theorem (env : AcqEnv) (st : AcqState) (d : HDate)
    (hs : HolidayState) (hhol : isPublicHoliday hs d = true)
    (hwk : weekday d < 5) (hex : env.existingDir = none)
    (hmiss : fsLookup st.fs (expectedCsvPath d) = none) :
    buildUrl d ∈ (acqStep env st d).1.netTrace := by
  have hfetch := downloadAndExtract_fetches env st d hmiss
  have hnot : ¬ (5 ≤ weekday d) := by omega
  simp only [acqStep, hex, if_neg hnot]
  repeat' split
  all_goals simp_all

/-- C1 witness: Independence Day 2025 in an untouched state. -/
theorem C1_witness :
    isPublicHoliday .recurringMode ⟨2025, 8, 15⟩ = true ∧
      buildUrl ⟨2025, 8, 15⟩ ∈ (acqStep envW acqState0 ⟨2025, 8, 15⟩).1.netTrace :=
  ⟨by decide,
   C1_theorem envW acqState0 ⟨2025, 8, 15⟩ .recurringMode (by decide)
     (by decide) rfl (by decide)⟩

/-! ## C2 — per-unit exception containment -/

/-- C2 counterexample: on Thursday 2025-08-14, `download_and_extract`
succeeds (the archive extracts, but to `other.csv` instead of the expected
`sec_bhavdata_full_14082025.csv`), and then the success-path
`expected_csv.stat().st_size` of `download_range` — executed outside any
`try` — raises `FileNotFoundError`, which propagates out of the per-date
loop; the date's unit gets no status record at all. -/
theorem C2_counterexample :
    (acqStep envC2 acqState0 ⟨2025, 8, 14⟩).2 =
      some "FileNotFoundError: data/202508/sec_bhavdata_full_14082025.csv" ∧
      (acqStep envC2 acqState0 ⟨2025, 8, 14⟩).1.statuses = [] := by
  decide

/-- The Conversion Pipeline's per-file loop appends exactly one record per
scanned input. -/
theorem convRun_length (env : ConvEnv) (force : Bool) (inputs : List ConvInput) :
    ∀ fs : FS, (convRun env force fs inputs).2.length = inputs.length := by
  induction inputs with
  | nil => intro fs; rfl
  | cons inp rest ih =>
    intro fs
    simp only [convRun, List.length_cons]
    rw [ih]

/-- C2 (amended): every unit of the Conversion Pipeline yields exactly one
ledger record, and every acquisition date whose loop iteration completes
without an exception appends exactly one record; but the success-path stat of
the expected CSV in `download_range` is unguarded, so (per the
counterexample) an iteration can instead raise out of the loop, leaving that
unit unrecorded. -/
theorem C2_theorem :
    (∀ (env : ConvEnv) (force : Bool) (fs : FS) (inputs : List ConvInput),
      (convRun env force fs inputs).2.length = inputs.length) ∧
    (∀ (env : AcqEnv) (st : AcqState) (d : HDate) (st' : AcqState),
      acqStep env st d = (st', none) →
        st'.statuses.length = st.statuses.length + 1) := by
  refine ⟨fun env force fs inputs => convRun_length env force inputs fs, ?_⟩
  intro env st d st' h
  have hds := downloadAndExtract_statuses env st d
  simp only [acqStep] at h
  repeat' split at h
  all_goals simp only [Prod.mk.injEq] at h
  all_goals first
    | (obtain ⟨h1, -⟩ := h
       subst h1
       simp [hds]
       done)
    | simp_all

/-- C2 witness: a weekend date completes without exception and appends one
record. -/
theorem C2_witness :
    (acqStep envW acqState0 ⟨2025, 8, 16⟩).1.statuses.length =
      acqState0.statuses.length + 1 := by
  obtain ⟨st', hst⟩ : ∃ st', acqStep envW acqState0 ⟨2025, 8, 16⟩ = (st', none) :=
    ⟨(acqStep envW acqState0 ⟨2025, 8, 16⟩).1, by decide⟩
  rw [hst]
  exact C2_theorem.2 envW acqState0 ⟨2025, 8, 16⟩ st' hst

/-! ## C6 — DDMMYYYY filename-tail extraction round-trips -/

theorem daysInMonth_le (y m : Nat) : daysInMonth y m ≤ 31 := by
  unfold daysInMonth
  split_ifs <;> omega

theorem digitVal_digitChar (n : Nat) (h : n < 10) :
    digitVal (digitChar n) = some n := by
  interval_cases n <;> rfl

theorem digitVal_some_eq (c : Char) (n : Nat) (h : digitVal c = some n) :
    n < 10 ∧ c = digitChar n := by
  unfold digitVal at h
  split_ifs at h with h0 h1 h2 h3 h4 h5 h6 h7 h8 h9
  · injection h with hn; subst hn; exact ⟨by decide, by rw [h0]; rfl⟩
  · injection h with hn; subst hn; exact ⟨by decide, by rw [h1]; rfl⟩
  · injection h with hn; subst hn; exact ⟨by decide, by rw [h2]; rfl⟩
  · injection h with hn; subst hn; exact ⟨by decide, by rw [h3]; rfl⟩
  · injection h with hn; subst hn; exact ⟨by decide, by rw [h4]; rfl⟩
  · injection h with hn; subst hn; exact ⟨by decide, by rw [h5]; rfl⟩
  · injection h with hn; subst hn; exact ⟨by decide, by rw [h6]; rfl⟩
  · injection h with hn; subst hn; exact ⟨by decide, by rw [h7]; rfl⟩
  · injection h with hn; subst hn; exact ⟨by decide, by rw [h8]; rfl⟩
  · injection h with hn; subst hn; exact ⟨by decide, by rw [h9]; rfl⟩

theorem pad2_digits (x y : Nat) (hx : x < 10) (hy : y < 10) :
    pad2 (10 * x + y) = [digitChar x, digitChar y] := by
  unfold pad2
  have e1 : (10 * x + y) / 10 % 10 = x := by omega
  have e2 : (10 * x + y) % 10 = y := by omega
  rw [e1, e2]

theorem pad4_digits (x y z w : Nat) (hx : x < 10) (hy : y < 10)
    (hz : z < 10) (hw : w < 10) :
    pad4 (1000 * x + 100 * y + 10 * z + w) =
      [digitChar x, digitChar y, digitChar z, digitChar w] := by
  unfold pad4
  have e1 : (1000 * x + 100 * y + 10 * z + w) / 1000 % 10 = x := by omega
  have e2 : (1000 * x + 100 * y + 10 * z + w) / 100 % 10 = y := by omega
  have e3 : (1000 * x + 100 * y + 10 * z + w) / 10 % 10 = z := by omega
  have e4 : (1000 * x + 100 * y + 10 * z + w) % 10 = w := by omega
  rw [e1, e2, e3, e4]

theorem parse8_format (d : HDate) (h : validDate d) :
    parse8 (formatDDMMYYYY d).data = some d := by
  obtain ⟨h1, h2, h3, h4, h5, h6⟩ := h
  have hd31 : d.day ≤ 31 := le_trans h6 (daysInMonth_le d.year d.month)
  have e1 := digitVal_digitChar (d.day / 10 % 10) (by omega)
  have e2 := digitVal_digitChar (d.day % 10) (by omega)
  have e3 := digitVal_digitChar (d.month / 10 % 10) (by omega)
  have e4 := digitVal_digitChar (d.month % 10) (by omega)
  have e5 := digitVal_digitChar (d.year / 1000 % 10) (by omega)
  have e6 := digitVal_digitChar (d.year / 100 % 10) (by omega)
  have e7 := digitVal_digitChar (d.year / 10 % 10) (by omega)
  have e8 := digitVal_digitChar (d.year % 10) (by omega)
  show parse8 [digitChar (d.day / 10 % 10), digitChar (d.day % 10),
    digitChar (d.month / 10 % 10), digitChar (d.month % 10),
    digitChar (d.year / 1000 % 10), digitChar (d.year / 100 % 10),
    digitChar (d.year / 10 % 10), digitChar (d.year % 10)] = some d
  simp only [parse8, e1, e2, e3, e4, e5, e6, e7, e8]
  have eday : 10 * (d.day / 10 % 10) + d.day % 10 = d.day := by omega
  have emonth : 10 * (d.month / 10 % 10) + d.month % 10 = d.month := by omega
  have eyear : 1000 * (d.year / 1000 % 10) + 100 * (d.year / 100 % 10) +
      10 * (d.year / 10 % 10) + d.year % 10 = d.year := by omega
  rw [eday, emonth, eyear, if_pos ⟨h5, h3, h4, h1, h6⟩]

theorem parse8_inv (l : List Char) (d : HDate) (h : parse8 l = some d) :
    validDate d ∧ l = (formatDDMMYYYY d).data := by
  unfold parse8 at h
  split at h
  case h_2 => exact absurd h (by simp)
  case h_1 a b c d' e f g h' =>
    split at h
    case h_2 => exact absurd h (by simp)
    case h_1 a' b' c' d'' e' f' g' h'' ha hb hc hd he hf hg hh =>
      simp only [] at h
      split_ifs at h with hP
      simp only [Option.some.injEq] at h
      subst h
      obtain ⟨ha1, ha2⟩ := digitVal_some_eq _ _ ha
      obtain ⟨hb1, hb2⟩ := digitVal_some_eq _ _ hb
      obtain ⟨hc1, hc2⟩ := digitVal_some_eq _ _ hc
      obtain ⟨hd1, hd2⟩ := digitVal_some_eq _ _ hd
      obtain ⟨he1, he2⟩ := digitVal_some_eq _ _ he
      obtain ⟨hf1, hf2⟩ := digitVal_some_eq _ _ hf
      obtain ⟨hg1, hg2⟩ := digitVal_some_eq _ _ hg
      obtain ⟨hh1, hh2⟩ := digitVal_some_eq _ _ hh
      obtain ⟨hP1, hP2, hP3, hP4, hP5⟩ := hP
      constructor
      · refine ⟨hP4, ?_, hP2, hP3, hP1, hP5⟩
        show 1000 * e' + 100 * f' + 10 * g' + h'' ≤ 9999
        omega
      · show _ = pad2 _ ++ pad2 _ ++ pad4 _
        rw [pad2_digits _ _ ha1 hb1, pad2_digits _ _ hc1 hd1,
          pad4_digits _ _ _ _ he1 hf1 hg1 hh1]
        rw [ha2, hb2, hc2, hd2, he2, hf2, hg2, hh2]
        rfl

/-- C6: extraction from a stem of length at least eight round-trips with the
DDMMYYYY rendering — a stem ending in the formatted tail of a valid date
parses back to exactly that date, and whenever extraction succeeds, the
stem's trailing eight characters are exactly the formatted rendering of the
returned (valid) date, so a tail that renders no valid date yields `None`
rather than any date. -/
theorem C6_theorem :
    (∀ (pre : String) (d : HDate), validDate d →
      dateFromStem (pre ++ formatDDMMYYYY d) = some d) ∧
    (∀ (stem : String) (d : HDate), 8 ≤ stem.length →
      dateFromStem stem = some d →
      validDate d ∧
        stem.data.drop (stem.data.length - 8) = (formatDDMMYYYY d).data) := by
  constructor
  · intro pre d h
    unfold dateFromStem
    rw [String.data_append]
    have hlen : (formatDDMMYYYY d).data.length = 8 := rfl
    rw [List.length_append, hlen]
    have : pre.data.length + 8 - 8 = pre.data.length := by omega
    rw [this, List.drop_left]
    exact parse8_format d h
  · intro stem d hlen h
    exact parse8_inv _ d h

/-- C6 witness: the documented example filename stem
`sec_bhavdata_full_23082019` in both directions. -/
theorem C6_witness :
    dateFromStem ("sec_bhavdata_full_" ++ formatDDMMYYYY ⟨2019, 8, 23⟩) =
      some ⟨2019, 8, 23⟩ ∧
    (validDate (⟨2019, 8, 23⟩ : HDate) ∧
      ("sec_bhavdata_full_23082019" : String).data.drop
          (("sec_bhavdata_full_23082019" : String).data.length - 8) =
        (formatDDMMYYYY ⟨2019, 8, 23⟩).data) :=
  ⟨C6_theorem.1 "sec_bhavdata_full_" ⟨2019, 8, 23⟩ (by decide),
   C6_theorem.2 "sec_bhavdata_full_23082019" ⟨2019, 8, 23⟩ (by decide)
     (by decide)⟩

/-! ## Helper lemmas on the conversion step -/

theorem mkConvRecord_status (fsOut : FS) (inputPath : FPath) (inputSize : Nat)
    (status : PStatus) (outputPath : Option FPath) (shape : Option (Nat × Nat))
    (copiedPath : Option FPath) :
    (mkConvRecord fsOut inputPath inputSize status outputPath shape
      copiedPath).status = status := rfl

/-- A curated Parquet path never collides with a copied raw input path: the
two trees live under distinct top-level partitions. -/
theorem curated_ne_copied (d d' : HDate) (name : String) :
    curatedPathOf d ≠ copiedPathOf d' name := by
  intro h
  have h2 : ("curated" : String) = "raw" := by
    have := congrArg (fun l => l.headD "") h
    simpa [curatedPathOf, copiedPathOf, rawDirOf] using this
  exact absurd h2 (by decide)

/-- With `force` disabled, one conversion step never overwrites an existing
binding: every file present before the step is present, unchanged, after
it. -/
theorem convStep_mono (env : ConvEnv) (fs : FS) (inp : ConvInput) :
    fsSub fs (convStep env false fs inp).fs := by
  simp only [convStep, Bool.false_or, Bool.not_false, Bool.true_and]
  split
  · exact fsSub_refl fs
  · rename_i d hdt
    split
    case' isTrue hnone =>
      have hsub1 : fsSub fs (fsInsert fs (copiedPathOf d (baseName inp.path))
          inp.content) :=
        fsSub_insert_fresh fs _ inp.content (Option.isNone_iff_eq_none.mp hnone)
      generalize hg : fsInsert fs (copiedPathOf d (baseName inp.path))
        inp.content = fs1 at hsub1 ⊢
    case' isFalse hnone =>
      have hsub1 : fsSub fs fs := fsSub_refl fs
      generalize hg : fs = fs1 at hsub1 ⊢
    all_goals
      clear hg
      split
      case' isFalse hskip =>
        have hcurnone : fsLookup fs1 (curatedPathOf d) = none := by
          cases hx : fsLookup fs1 (curatedPathOf d) with
          | none => rfl
          | some v => exact absurd (by rw [hx]; rfl) hskip
      all_goals first
        | exact hsub1
        | (split
           · exact hsub1
           · split
             · exact fsSub_trans hsub1 (fsSub_insert_fresh fs1 _ _ hcurnone)
             · split
               · exact fsSub_trans hsub1 (fsSub_insert_fresh fs1 _ _ hcurnone)
               · exact hsub1)

/-- Monotonicity of a whole `force`-disabled conversion run. -/
theorem convRun_mono (env : ConvEnv) (inputs : List ConvInput) :
    ∀ fs : FS, fsSub fs (convRun env false fs inputs).1 := by
  induction inputs with
  | nil => intro fs; exact fsSub_refl fs
  | cons inp rest ih =>
    intro fs
    exact fsSub_trans (convStep_mono env fs inp) (ih (convStep env false fs inp).fs)

/-- A step whose filename yields no date records an error. -/
theorem convStep_error_of_none (env : ConvEnv) (force : Bool) (fs : FS)
    (inp : ConvInput) (h : getFileDatetimeFromName inp.path = none) :
    (convStep env force fs inp).record.status = .error := by
  simp only [convStep, h]
  rfl

/-- With `force` disabled, a step whose curated Parquet already exists
records a skip. -/
theorem convStep_skips (env : ConvEnv) (fs : FS) (inp : ConvInput) (d : HDate)
    (v : String) (hdt : getFileDatetimeFromName inp.path = some d)
    (hcur : fsLookup fs (curatedPathOf d) = some v) :
    (convStep env false fs inp).record.status = .skipped := by
  simp only [convStep, hdt, Bool.false_or, Bool.not_false, Bool.true_and]
  split
  · have hcur1 : fsLookup (fsInsert fs (copiedPathOf d (baseName inp.path))
        inp.content) (curatedPathOf d) = some v := by
      rw [fsLookup_insert,
        if_neg (Ne.symm (curated_ne_copied d d (baseName inp.path)))]
      exact hcur
    rw [hcur1]
    rfl
  · rw [hcur]
    rfl

/-- A step that records success or skip leaves the curated Parquet present. -/
theorem convStep_good_curated (env : ConvEnv) (fs : FS) (inp : ConvInput)
    (d : HDate) (hdt : getFileDatetimeFromName inp.path = some d)
    (hgood : (convStep env false fs inp).record.status = .success ∨
      (convStep env false fs inp).record.status = .skipped) :
    ∃ v, fsLookup (convStep env false fs inp).fs (curatedPathOf d) = some v := by
  revert hgood
  simp only [convStep, hdt, Bool.false_or, Bool.not_false, Bool.true_and]
  split
  all_goals
    split
    case' isTrue hc =>
      intro _
      exact Option.isSome_iff_exists.mp hc
    case' isFalse hc =>
      split
      · intro hgood
        simp [mkConvRecord_status] at hgood
      · split
        · intro _
          exact ⟨_, by rw [fsLookup_insert, if_pos rfl]⟩
        · split
          · intro hgood
            simp [mkConvRecord_status] at hgood
          · intro hgood
            simp [mkConvRecord_status] at hgood

/-- Aligned re-run: if the second run starts from a filesystem containing
everything the first run ends with, every unit the first run recorded as
success or skip is recorded as skip by the second run. -/
theorem convRun_rerun_skip (env : ConvEnv) :
    ∀ (inputs : List ConvInput) (fsA fsB : FS),
      fsSub (convRun env false fsA inputs).1 fsB →
      ∀ (i : Nat) (r1 r2 : ConvRecord),
        (convRun env false fsA inputs).2[i]? = some r1 →
        (convRun env false fsB inputs).2[i]? = some r2 →
        (r1.status = .success ∨ r1.status = .skipped) →
        r2.status = .skipped := by
  intro inputs
  induction inputs with
  | nil =>
    intro fsA fsB hsub i r1 r2 h1 h2 hgood
    simp [convRun] at h1
  | cons inp rest ih =>
    intro fsA fsB hsub i r1 r2 h1 h2 hgood
    cases i with
    | zero =>
      simp only [convRun, List.getElem?_cons_zero, Option.some.injEq] at h1 h2
      cases hdt : getFileDatetimeFromName inp.path with
      | none =>
        rw [← h1] at hgood
        have he := convStep_error_of_none env false fsA inp hdt
        rw [he] at hgood
        simp at hgood
      | some d =>
        rw [← h1] at hgood
        obtain ⟨v, hv⟩ := convStep_good_curated env fsA inp d hdt hgood
        have hv2 := convRun_mono env rest (convStep env false fsA inp).fs
          (curatedPathOf d) v hv
        have hvB := hsub (curatedPathOf d) v hv2
        rw [← h2]
        exact convStep_skips env fsB inp d v hdt hvB
    | succ n =>
      simp only [convRun, List.getElem?_cons_succ] at h1 h2
      exact ih (convStep env false fsA inp).fs (convStep env false fsB inp).fs
        (fsSub_trans hsub (convStep_mono env fsB inp)) n r1 r2 h1 h2 hgood

/-! ## C7 — re-running the Conversion Pipeline with force disabled -/

/-- C7 counterexample: over an input whose filename tail parses to no valid
date, the first run records an error and the second run records an error
again — not a skip — so the second run's ledger does not mark every unit as
skipped. -/
theorem C7_counterexample :
    (convRun envC7 false (convRun envC7 false [] convInputsBad).1
        convInputsBad).2.map (fun r => r.status) = [PStatus.error] ∧
      ((convRun envC7 false (convRun envC7 false [] convInputsBad).1
        convInputsBad).2.all (fun r => r.status == PStatus.skipped)) = false := by
  decide

/-- C7 (amended): with `force` disabled, a second run over the same input
list leaves every file written by the first run present with identical bytes,
and every unit the first run recorded as success or skipped is recorded as
skipped by the second run; units that errored in the first run are
re-attempted (and, per the counterexample, may error again rather than be
skipped). -/
theorem C7_theorem (env : ConvEnv) (inputs : List ConvInput) (fs0 : FS) :
    (∀ (p : FPath) (v : String),
      fsLookup (convRun env false fs0 inputs).1 p = some v →
        fsLookup (convRun env false (convRun env false fs0 inputs).1
          inputs).1 p = some v) ∧
    (∀ (i : Nat) (r1 r2 : ConvRecord),
      (convRun env false fs0 inputs).2[i]? = some r1 →
      (convRun env false (convRun env false fs0 inputs).1 inputs).2[i]? =
        some r2 →
      (r1.status = .success ∨ r1.status = .skipped) →
      r2.status = .skipped) := by
  constructor
  · intro p v hv
    exact convRun_mono env inputs (convRun env false fs0 inputs).1 p v hv
  · intro i r1 r2 h1 h2 hgood
    exact convRun_rerun_skip env inputs fs0 (convRun env false fs0 inputs).1
      (fsSub_refl _) i r1 r2 h1 h2 hgood

/-- C7 witness: a unit succeeding in run one is skipped in run two. -/
theorem C7_witness :
    (convRun envC7ok false [] [inpGood]).2[0]?.map (fun r => r.status) =
      some PStatus.success ∧
    (convRun envC7ok false (convRun envC7ok false [] [inpGood]).1
        [inpGood]).2[0]?.map (fun r => r.status) = some PStatus.skipped := by
  refine ⟨by decide, ?_⟩
  obtain ⟨r1, h1⟩ : ∃ r1, (convRun envC7ok false [] [inpGood]).2[0]? =
      some r1 := ⟨_, rfl⟩
  obtain ⟨r2, h2⟩ : ∃ r2, (convRun envC7ok false
      (convRun envC7ok false [] [inpGood]).1 [inpGood]).2[0]? = some r2 :=
    ⟨_, rfl⟩
  have hstat1 : r1.status = PStatus.success := by
    have hh : (convRun envC7ok false [] [inpGood]).2[0]?.map
        (fun r => r.status) = some PStatus.success := by decide
    rw [h1] at hh
    simpa using hh
  rw [h2]
  have hr2 := (C7_theorem envC7ok [inpGood] []).2 0 r1 r2 h1 h2 (Or.inl hstat1)
  simp [hr2]

/-! ## C9 — parse/write failures in the Conversion Pipeline -/

/-- C9 counterexample: when the write primitive fails after leaving partial
bytes at the destination, the step records an error but performs no cleanup —
the curated destination holds the truncated partial file, it is not left
absent. -/
theorem C9_counterexample :
    (convStep envC9 false [] inpW).record.status = PStatus.error ∧
      fsLookup (convStep envC9 false [] inpW).fs
        (curatedPathOf ⟨2019, 8, 23⟩) = some "PARTIAL" := by
  decide

/-- C9 (amended): a parse or write exception for a unit is caught and
recorded as exactly one error record, with the exception's message emitted to
the log (the status record itself has no message column); the curated
destination is not cleaned up — after a failed write it holds exactly what
the write primitive left there (absent only when the primitive left
nothing). -/
theorem C9_theorem (env : ConvEnv) (fs : FS) (inp : ConvInput) (dt : HDate)
    (msg : String) (hdate : getFileDatetimeFromName inp.path = some dt)
    (hcur : fsLookup fs (curatedPathOf dt) = none) :
    (env.readCSV inp.content = .error msg →
      (convStep env false fs inp).record.status = .error ∧
      ("[ERROR] Failed to process " ++ joinPath inp.path ++ ": " ++ msg) ∈
        (convStep env false fs inp).logs ∧
      fsLookup (convStep env false fs inp).fs (curatedPathOf dt) = none) ∧
    (∀ (df : Table) (pb : Option String),
      env.readCSV inp.content = .ok df → env.writeParquet df = .fail msg pb →
        (convStep env false fs inp).record.status = .error ∧
        ("[ERROR] Failed to process " ++ joinPath inp.path ++ ": " ++ msg) ∈
          (convStep env false fs inp).logs ∧
        fsLookup (convStep env false fs inp).fs (curatedPathOf dt) = pb) := by
  have hne : copiedPathOf dt (baseName inp.path) ≠ curatedPathOf dt :=
    Ne.symm (curated_ne_copied dt dt (baseName inp.path))
  constructor
  · intro hread
    simp only [convStep, hdate, Bool.false_or, Bool.not_false, Bool.true_and]
    split
    case' isTrue hni =>
      have hcur1 : fsLookup (fsInsert fs (copiedPathOf dt (baseName inp.path))
          inp.content) (curatedPathOf dt) = none := by
        rw [fsLookup_insert, if_neg hne]
        exact hcur
    case' isFalse hni =>
      have hcur1 : fsLookup fs (curatedPathOf dt) = none := hcur
    all_goals
      rw [hcur1]
      simp only [Option.isSome_none, Bool.false_eq_true, if_false, hread]
      refine ⟨rfl, ?_, ?_⟩
      · simp
      · exact hcur1
  · intro df pb hread hwrite
    simp only [convStep, hdate, Bool.false_or, Bool.not_false, Bool.true_and]
    split
    case' isTrue hni =>
      have hcur1 : fsLookup (fsInsert fs (copiedPathOf dt (baseName inp.path))
          inp.content) (curatedPathOf dt) = none := by
        rw [fsLookup_insert, if_neg hne]
        exact hcur
    case' isFalse hni =>
      have hcur1 : fsLookup fs (curatedPathOf dt) = none := hcur
    all_goals
      rw [hcur1]
      simp only [Option.isSome_none, Bool.false_eq_true, if_false, hread, hwrite]
      cases pb with
      | none => exact ⟨rfl, by simp, hcur1⟩
      | some pbv =>
        refine ⟨rfl, by simp, ?_⟩
        rw [fsLookup_insert, if_pos rfl]

/-- C9 witness: a concrete parse failure is caught, logged with its message,
and leaves no curated output. -/
theorem C9_witness :
    (convStep envC9read false [] inpW2).record.status = PStatus.error ∧
      ("[ERROR] Failed to process " ++ joinPath inpW2.path ++ ": " ++ "boom") ∈
        (convStep envC9read false [] inpW2).logs ∧
      fsLookup (convStep envC9read false [] inpW2).fs
        (curatedPathOf ⟨2019, 8, 23⟩) = none :=
  (C9_theorem envC9read [] inpW2 ⟨2019, 8, 23⟩ "boom" (by decide) rfl).1 rfl

end InvestorAgent
